import Mathlib

/-!
Shallow embedding of pywikitools/fortraininglib.py and proofs about its
translation-statistics policy, string transforms and JSON-shape handling.
Remote HTTP responses are modelled as explicit inputs: each embedded
function takes the (already parsed) response data it would have received
from the wiki API.
-/

namespace Fortraininglib

/-- Result of running a piece of Python code: either a returned value or an
uncaught exception, identified by the exception class name. -/
inductive PyResult (α : Type) where
  | ok : α → PyResult α
  | exn : String → PyResult α
deriving DecidableEq, Repr

/-! ## Translation statistics (get_msggroupstats, list_page_translations) -/

/-- One per-language entry of the messagegroupstats feed, as consumed by
list_page_translations: fields language, total, translated, fuzzy. -/
structure StatsLine where
  language : String
  total : Int
  translated : Int
  fuzzy : Int
deriving DecidableEq, Repr

/-- Shape of one response to the messagegroupstats query.
hasContinue models whether the key continue is present.
query models the nesting json[query][messagegroupstats]:
none when the key query is absent, some none when query is present but
messagegroupstats is absent, some (some lines) when both are present. -/
structure StatsResponse where
  hasContinue : Bool
  query : Option (Option (List StatsLine))

/-- While-loop of get_msggroupstats, unrolled to its bound: counter starts
at 1 and the guard is counter < 4, so at most three requests are issued;
the loop breaks as soon as a response carries no continue key.
Returns (number of requests issued, last received response). -/
def get_msggroupstats_run (responses : Nat → StatsResponse) : Nat × StatsResponse :=
  let j1 := responses 1
  if !j1.hasContinue then (1, j1)
  else
    let j2 := responses 2
    if !j2.hasContinue then (2, j2)
    else (3, responses 3)

/-- Embedding of get_msggroupstats: runs the bounded retry loop, then the
two key-presence checks; the Python empty-string error sentinel is none. -/
def get_msggroupstats (responses : Nat → StatsResponse) : Option (List StatsLine) :=
  match (get_msggroupstats_run responses).2.query with
  | none => none
  | some none => none
  | some (some lines) => some lines

/-- For-loop body of list_page_translations. First component: the
available_translations list built up by the loop. Second component: the
language codes for which the incomplete-translation warning is logged. -/
def list_page_translations_loop : List StatsLine → List String × List String
  | [] => ([], [])
  | line :: rest =>
    let tail := list_page_translations_loop rest
    if line.translated > 0 then
      if line.total - line.fuzzy - line.translated > 4 then tail
      else
        (line.language :: tail.1,
         if line.translated + line.fuzzy < line.total then line.language :: tail.2 else tail.2)
    else tail

/-- Embedding of list_page_translations: empty list when get_msggroupstats
failed, otherwise the classification loop over the statistics feed. -/
def list_page_translations (responses : Nat → StatsResponse) : List String :=
  match get_msggroupstats responses with
  | none => []
  | some lines => (list_page_translations_loop lines).1

/-- The loop of list_page_translations, on a feed of non-negative counts,
computes exactly the filter-and-project of the feed described by the spec:
kept languages and warned languages, in feed order. -/
theorem list_page_translations_loop_spec (lines : List StatsLine)
    (hnn : ∀ l ∈ lines, 0 ≤ l.translated) :
    (list_page_translations_loop lines).1
      = (lines.filter (fun l =>
          decide (l.translated ≠ 0 ∧ l.total - l.fuzzy - l.translated ≤ 4))).map StatsLine.language
  ∧ (list_page_translations_loop lines).2
      = (lines.filter (fun l =>
          decide (l.translated ≠ 0 ∧ l.total - l.fuzzy - l.translated ≤ 4
            ∧ l.translated + l.fuzzy < l.total))).map StatsLine.language := by
  induction lines with
  | nil => exact ⟨rfl, rfl⟩
  | cons l rest ih =>
    have hl : 0 ≤ l.translated := hnn l (List.mem_cons_self l rest)
    have hrest := ih (fun x hx => hnn x (List.mem_cons_of_mem _ hx))
    by_cases h1 : l.translated > 0
    · by_cases h2 : l.total - l.fuzzy - l.translated > 4
      · have hloop : list_page_translations_loop (l :: rest)
            = list_page_translations_loop rest := by
          simp only [list_page_translations_loop]
          rw [if_pos h1, if_pos h2]
        have hf1 : List.filter (fun x =>
              decide (x.translated ≠ 0 ∧ x.total - x.fuzzy - x.translated ≤ 4)) (l :: rest)
            = List.filter (fun x =>
              decide (x.translated ≠ 0 ∧ x.total - x.fuzzy - x.translated ≤ 4)) rest :=
          List.filter_cons_of_neg (by simp only [decide_eq_true_eq]; omega)
        have hf2 : List.filter (fun x =>
              decide (x.translated ≠ 0 ∧ x.total - x.fuzzy - x.translated ≤ 4
                ∧ x.translated + x.fuzzy < x.total)) (l :: rest)
            = List.filter (fun x =>
              decide (x.translated ≠ 0 ∧ x.total - x.fuzzy - x.translated ≤ 4
                ∧ x.translated + x.fuzzy < x.total)) rest :=
          List.filter_cons_of_neg (by simp only [decide_eq_true_eq]; omega)
        exact ⟨by rw [hloop, hf1]; exact hrest.1, by rw [hloop, hf2]; exact hrest.2⟩
      · have hf1 : List.filter (fun x =>
              decide (x.translated ≠ 0 ∧ x.total - x.fuzzy - x.translated ≤ 4)) (l :: rest)
            = l :: List.filter (fun x =>
              decide (x.translated ≠ 0 ∧ x.total - x.fuzzy - x.translated ≤ 4)) rest :=
          List.filter_cons_of_pos (by simp only [decide_eq_true_eq]; omega)
        by_cases h3 : l.translated + l.fuzzy < l.total
        · have hloop : list_page_translations_loop (l :: rest)
              = (l.language :: (list_page_translations_loop rest).1,
                 l.language :: (list_page_translations_loop rest).2) := by
            simp only [list_page_translations_loop]
            rw [if_pos h1, if_neg h2, if_pos h3]
          have hf2 : List.filter (fun x =>
                decide (x.translated ≠ 0 ∧ x.total - x.fuzzy - x.translated ≤ 4
                  ∧ x.translated + x.fuzzy < x.total)) (l :: rest)
              = l :: List.filter (fun x =>
                decide (x.translated ≠ 0 ∧ x.total - x.fuzzy - x.translated ≤ 4
                  ∧ x.translated + x.fuzzy < x.total)) rest :=
            List.filter_cons_of_pos (by simp only [decide_eq_true_eq]; omega)
          constructor
          · rw [hloop, hf1]
            simp [hrest.1]
          · rw [hloop, hf2]
            simp [hrest.2]
        · have hloop : list_page_translations_loop (l :: rest)
              = (l.language :: (list_page_translations_loop rest).1,
                 (list_page_translations_loop rest).2) := by
            simp only [list_page_translations_loop]
            rw [if_pos h1, if_neg h2, if_neg h3]
          have hf2 : List.filter (fun x =>
                decide (x.translated ≠ 0 ∧ x.total - x.fuzzy - x.translated ≤ 4
                  ∧ x.translated + x.fuzzy < x.total)) (l :: rest)
              = List.filter (fun x =>
                decide (x.translated ≠ 0 ∧ x.total - x.fuzzy - x.translated ≤ 4
                  ∧ x.translated + x.fuzzy < x.total)) rest :=
            List.filter_cons_of_neg (by simp only [decide_eq_true_eq]; omega)
          constructor
          · rw [hloop, hf1]
            simp [hrest.1]
          · rw [hloop, hf2]
            simp [hrest.2]
    · have hloop : list_page_translations_loop (l :: rest)
          = list_page_translations_loop rest := by
        simp only [list_page_translations_loop]
        rw [if_neg h1]
      have hf1 : List.filter (fun x =>
            decide (x.translated ≠ 0 ∧ x.total - x.fuzzy - x.translated ≤ 4)) (l :: rest)
          = List.filter (fun x =>
            decide (x.translated ≠ 0 ∧ x.total - x.fuzzy - x.translated ≤ 4)) rest :=
        List.filter_cons_of_neg (by simp only [decide_eq_true_eq]; omega)
      have hf2 : List.filter (fun x =>
            decide (x.translated ≠ 0 ∧ x.total - x.fuzzy - x.translated ≤ 4
              ∧ x.translated + x.fuzzy < x.total)) (l :: rest)
          = List.filter (fun x =>
            decide (x.translated ≠ 0 ∧ x.total - x.fuzzy - x.translated ≤ 4
              ∧ x.translated + x.fuzzy < x.total)) rest :=
        List.filter_cons_of_neg (by simp only [decide_eq_true_eq]; omega)
      exact ⟨by rw [hloop, hf1]; exact hrest.1, by rw [hloop, hf2]; exact hrest.2⟩

/-- C1: on every statistics feed (with non-negative translated counts, as
counts are), list_page_translations keeps exactly the entries with
translated nonzero and at most 4 units neither translated nor fuzzy, in
feed order; entries with translated + fuzzy < total among those are still
kept and only flagged by the incomplete-translation warning. -/
theorem list_page_translations_classification
    (responses : Nat → StatsResponse) (lines : List StatsLine)
    (hfeed : get_msggroupstats responses = some lines)
    (hnn : ∀ l ∈ lines, 0 ≤ l.translated) :
    list_page_translations responses
      = (lines.filter (fun l =>
          decide (l.translated ≠ 0 ∧ l.total - l.fuzzy - l.translated ≤ 4))).map StatsLine.language
  ∧ (list_page_translations_loop lines).2
      = (lines.filter (fun l =>
          decide (l.translated ≠ 0 ∧ l.total - l.fuzzy - l.translated ≤ 4
            ∧ l.translated + l.fuzzy < l.total))).map StatsLine.language := by
  have h := list_page_translations_loop_spec lines hnn
  refine ⟨?_, h.2⟩
  rw [list_page_translations, hfeed]
  exact h.1

/-- Sample statistics feed exercising all three classification outcomes. -/
def sampleStats : List StatsLine :=
  [⟨"de", 10, 6, 0⟩, ⟨"fr", 10, 5, 0⟩, ⟨"kn", 2, 0, 0⟩, ⟨"ar", 5, 5, 0⟩]

/-- Response sequence delivering sampleStats at the first request. -/
def sampleStatsResponses : Nat → StatsResponse := fun _ => ⟨false, some (some sampleStats)⟩

/-- Witness for C1 at a concrete feed. -/
theorem list_page_translations_classification_witness :
    list_page_translations sampleStatsResponses
      = ((sampleStats.filter (fun l =>
          decide (l.translated ≠ 0 ∧ l.total - l.fuzzy - l.translated ≤ 4))).map StatsLine.language)
  ∧ (list_page_translations_loop sampleStats).2
      = ((sampleStats.filter (fun l =>
          decide (l.translated ≠ 0 ∧ l.total - l.fuzzy - l.translated ≤ 4
            ∧ l.translated + l.fuzzy < l.total))).map StatsLine.language) :=
  list_page_translations_classification sampleStatsResponses sampleStats rfl (by decide)

/-- C2: when the statistics fetch yields no usable data (the last received
response lacks the query key or the messagegroupstats key),
list_page_translations returns the empty list. -/
theorem list_page_translations_empty_on_failure
    (responses : Nat → StatsResponse)
    (h : (get_msggroupstats_run responses).2.query = none
       ∨ (get_msggroupstats_run responses).2.query = some none) :
    list_page_translations responses = [] := by
  rcases h with h | h <;> simp [list_page_translations, get_msggroupstats, h]

/-- Response sequence whose responses carry no usable data at all. -/
def failResponses : Nat → StatsResponse := fun _ => ⟨false, none⟩

/-- Witness for C2 at a concrete malformed response. -/
theorem list_page_translations_empty_on_failure_witness :
    list_page_translations failResponses = [] :=
  list_page_translations_empty_on_failure failResponses (Or.inl rfl)

/-- C6: get_msggroupstats issues at most 3 requests, every response before
the last one carried the continue flag (so it stops early as soon as the
flag disappears), stopping before the third request happens only on a
response without the flag, the returned data is the last received
response, and an absent query key yields the neutral empty result. -/
theorem get_msggroupstats_spec (responses : Nat → StatsResponse) :
    (get_msggroupstats_run responses).1 ≤ 3
  ∧ (get_msggroupstats_run responses).2 = responses (get_msggroupstats_run responses).1
  ∧ (∀ k, 1 ≤ k → k < (get_msggroupstats_run responses).1 → (responses k).hasContinue = true)
  ∧ ((get_msggroupstats_run responses).1 < 3 →
      (responses (get_msggroupstats_run responses).1).hasContinue = false)
  ∧ ((responses (get_msggroupstats_run responses).1).query = none →
      get_msggroupstats responses = none) := by
  cases hb1 : (responses 1).hasContinue with
  | false =>
    have e : get_msggroupstats_run responses = (1, responses 1) := by
      simp [get_msggroupstats_run, hb1]
    refine ⟨by simp [e], by simp [e], ?_, ?_, ?_⟩
    · intro k hk1 hk2
      rw [e] at hk2
      simp at hk2
      omega
    · intro _
      rw [e]
      exact hb1
    · intro h
      rw [e] at h
      simp [get_msggroupstats, e, h]
  | true =>
    cases hb2 : (responses 2).hasContinue with
    | false =>
      have e : get_msggroupstats_run responses = (2, responses 2) := by
        simp [get_msggroupstats_run, hb1, hb2]
      refine ⟨by simp [e], by simp [e], ?_, ?_, ?_⟩
      · intro k hk1 hk2
        rw [e] at hk2
        simp at hk2
        have hk : k = 1 := by omega
        subst hk
        exact hb1
      · intro _
        rw [e]
        exact hb2
      · intro h
        rw [e] at h
        simp [get_msggroupstats, e, h]
    | true =>
      have e : get_msggroupstats_run responses = (3, responses 3) := by
        simp [get_msggroupstats_run, hb1, hb2]
      refine ⟨by simp [e], by simp [e], ?_, ?_, ?_⟩
      · intro k hk1 hk2
        rw [e] at hk2
        simp at hk2
        have hk : k = 1 ∨ k = 2 := by omega
        rcases hk with rfl | rfl
        · exact hb1
        · exact hb2
      · intro hlt
        rw [e] at hlt
        simp at hlt
      · intro h
        rw [e] at h
        simp [get_msggroupstats, e, h]

/-- Response sequence that keeps signalling continue on the first two
requests and completes at the third. -/
def contResponses : Nat → StatsResponse := fun k => ⟨decide (k < 3), some (some [])⟩

/-- Witness for C6 at a concrete response sequence needing all 3 requests. -/
theorem get_msggroupstats_spec_witness :
    (get_msggroupstats_run contResponses).1 ≤ 3
  ∧ (get_msggroupstats_run contResponses).2 = contResponses (get_msggroupstats_run contResponses).1
  ∧ (contResponses 1).hasContinue = true :=
  ⟨(get_msggroupstats_spec contResponses).1, (get_msggroupstats_spec contResponses).2.1,
   (get_msggroupstats_spec contResponses).2.2.1 1 (by decide) (by decide)⟩

/-! ## Language direction (get_language_direction) -/

/-- Embedding of get_language_direction with its hard-coded RTL list. -/
def get_language_direction (languagecode : String) : String :=
  let RTL := ["ar", "fa", "ckb", "ar-urdun", "ps", "ur"]
  if languagecode ∈ RTL then "rtl" else "ltr"

/-- C8: get_language_direction answers rtl exactly on the six codes of the
hard-coded RTL set and ltr on every other string. -/
theorem get_language_direction_spec (s : String) :
    (get_language_direction s = "rtl"
      ↔ (s = "ar" ∨ s = "fa" ∨ s = "ckb" ∨ s = "ar-urdun" ∨ s = "ps" ∨ s = "ur"))
  ∧ (get_language_direction s = "ltr"
      ↔ ¬(s = "ar" ∨ s = "fa" ∨ s = "ckb" ∨ s = "ar-urdun" ∨ s = "ps" ∨ s = "ur")) := by
  by_cases h : s ∈ ["ar", "fa", "ckb", "ar-urdun", "ps", "ur"]
  · have hmem : s = "ar" ∨ s = "fa" ∨ s = "ckb" ∨ s = "ar-urdun" ∨ s = "ps" ∨ s = "ur" := by
      simpa using h
    constructor
    · simp [get_language_direction, h, hmem]
    · simp [get_language_direction, h, hmem]
  · have hmem : ¬(s = "ar" ∨ s = "fa" ∨ s = "ckb" ∨ s = "ar-urdun" ∨ s = "ps" ∨ s = "ur") := by
      simpa using h
    constructor
    · simp [get_language_direction, h, hmem]
    · simp [get_language_direction, h, hmem]

/-- Witness for C8 at two concrete codes, an RTL one and the empty string. -/
theorem get_language_direction_spec_witness :
    get_language_direction "ckb" = "rtl" ∧ get_language_direction "" = "ltr" :=
  ⟨(get_language_direction_spec "ckb").1.mpr (by decide),
   (get_language_direction_spec "").2.mpr (by decide)⟩

/-! ## Template list (list_page_templates) -/

/-- Embedding of the find call of Python: index of the first occurrence of
a character in a string, counted in code points, or -1 when absent. -/
def py_find (s : List Char) (c : Char) : Int :=
  match s with
  | [] => -1
  | a :: as =>
    if a == c then 0
    else if py_find as c == -1 then -1 else py_find as c + 1

/-- py_find never returns a value below -1. -/
theorem py_find_neg_one_or_nonneg (s : List Char) (c : Char) :
    py_find s c = -1 ∨ 0 ≤ py_find s c := by
  induction s with
  | nil => exact Or.inl rfl
  | cons a as ih =>
    by_cases ha : (a == c) = true
    · right
      simp [py_find, ha]
    · have hne : (a == c) = false := by simpa using ha
      rcases ih with h | h
      · left
        simp [py_find, hne, h]
      · right
        have hb : (py_find as c == -1) = false := by
          simp only [beq_eq_false_iff_ne, ne_eq]
          omega
        simp only [py_find, hne, Bool.false_eq_true, if_false, hb]
        omega

/-- For-loop of list_page_templates over the template entries of the
response, an entry being some title when the key title is present and none
otherwise: a title with a slash is cut at its first slash via find and a
slice, a title without one is kept whole. -/
def list_page_templates (templates : List (Option String)) : List String :=
  match templates with
  | [] => []
  | none :: rest => list_page_templates rest
  | some title :: rest =>
    (if py_find title.data '/' == -1 then title
     else String.mk (title.data.take (py_find title.data '/').toNat))
      :: list_page_templates rest

/-- Cutting a list at the first occurrence of a character, via find and
take, is the same as taking the longest prefix free of that character. -/
theorem py_find_take_eq_takeWhile (c : Char) (l : List Char) :
    (if py_find l c == -1 then l else l.take (py_find l c).toNat)
      = l.takeWhile (fun x => x != c) := by
  induction l with
  | nil => rfl
  | cons a as ih =>
    by_cases ha : (a == c) = true
    · have hpf : py_find (a :: as) c = 0 := by simp [py_find, ha]
      have hac : a = c := eq_of_beq ha
      rw [hpf]
      simp [List.takeWhile_cons, ha, hac]
    · have hne : (a == c) = false := by simpa using ha
      rcases py_find_neg_one_or_nonneg as c with h | h
      · have hcond : (py_find (a :: as) c == -1) = true := by
          simp [py_find, hne, h]
        have ihe : as = as.takeWhile (fun x => x != c) := by
          rw [if_pos (by simp [h])] at ih
          exact ih
        rw [if_pos hcond]
        simp only [List.takeWhile_cons, bne, hne, Bool.not_false, if_true]
        exact congrArg (a :: ·) ihe
      · have hne2 : (py_find as c == -1) = false := by
          simp only [beq_eq_false_iff_ne, ne_eq]
          omega
        have hpf : py_find (a :: as) c = py_find as c + 1 := by
          simp [py_find, hne, hne2]
        have hcond : ¬(py_find (a :: as) c == -1) = true := by
          rw [hpf]
          simp only [beq_iff_eq]
          omega
        rw [if_neg hcond, hpf]
        have htn : (py_find as c + 1).toNat = (py_find as c).toNat + 1 := by omega
        rw [htn, List.take_succ_cons]
        have ihe : as.take (py_find as c).toNat = as.takeWhile (fun x => x != c) := by
          rw [if_neg (by simp [hne2])] at ih
          exact ih
        simp only [List.takeWhile_cons, bne, hne, Bool.not_false, if_true]
        exact congrArg (a :: ·) ihe

/-- C9: every title with the key present contributes to the result of
list_page_templates exactly its prefix before the first slash (the whole
title when it has no slash), in response order. -/
theorem list_page_templates_strip (templates : List (Option String)) :
    list_page_templates templates
      = (templates.filterMap id).map
          (fun t => String.mk (t.data.takeWhile (fun x => x != '/'))) := by
  induction templates with
  | nil => rfl
  | cons entry rest ih =>
    cases entry with
    | none => simpa [list_page_templates] using ih
    | some title =>
      have h := py_find_take_eq_takeWhile '/' title.data
      by_cases hc : py_find title.data '/' == -1
      · have htitle : title = String.mk (title.data.takeWhile (fun x => x != '/')) := by
          rw [if_pos hc] at h
          exact congrArg String.mk h
        simp only [list_page_templates, hc, if_true, List.filterMap_cons_some, List.map_cons, ih]
        exact congrArg (· :: _) htitle
      · have htake : title.data.take (py_find title.data '/').toNat
            = title.data.takeWhile (fun x => x != '/') := by
          rw [if_neg hc] at h
          exact h
        simp only [list_page_templates, hc, Bool.false_eq_true, if_false,
          List.filterMap_cons_some, List.map_cons, ih]
        exact congrArg (· :: _) (congrArg String.mk htake)

/-- Witness for C9 on a concrete template list with a missing title, a
suffixed title and a plain one. -/
theorem list_page_templates_strip_witness :
    list_page_templates [some "Template:Italic/en", none, some "Template:Bible"]
      = (([some "Template:Italic/en", none, some "Template:Bible"].filterMap id).map
          (fun t => String.mk (t.data.takeWhile (fun x => x != '/')))) :=
  list_page_templates_strip [some "Template:Italic/en", none, some "Template:Bible"]

/-! ## File URL lookup (get_file_url) -/

/-- One imageinfo record of the file query response. -/
structure ImageInfo where
  url : String
deriving DecidableEq, Repr

/-- One page of the file query response. -/
structure FilePage where
  imageinfo : List ImageInfo
deriving DecidableEq, Repr

/-- The pages object of the file query response: page id keys, already
parsed to integers, paired with their page records. -/
structure FileUrlResponse where
  pages : List (Int × FilePage)
deriving DecidableEq, Repr

/-- Embedding of get_file_url: None unless the answer holds exactly one
page, None when that page id is -1; otherwise the url of the first
imageinfo record, an uncaught error when that record is absent. -/
def get_file_url (resp : FileUrlResponse) : PyResult (Option String) :=
  match resp.pages with
  | [(pid, page)] =>
    if pid == -1 then PyResult.ok none
    else
      match page.imageinfo with
      | [] => PyResult.exn "KeyError"
      | i :: _ => PyResult.ok (some i.url)
  | _ => PyResult.ok none

/-- C7 counterexample: a single page whose id is -2, negative yet distinct
from -1, makes get_file_url return the resolved URL, not the not-found
sentinel None. -/
theorem get_file_url_negative_id_not_none :
    get_file_url ⟨[(-2, ⟨[⟨"https://www.4training.net/f.pdf"⟩]⟩)]⟩
        = PyResult.ok (some "https://www.4training.net/f.pdf")
  ∧ (-2 : Int) < 0
  ∧ PyResult.ok (some "https://www.4training.net/f.pdf")
      ≠ (PyResult.ok none : PyResult (Option String)) := by
  refine ⟨rfl, by decide, by decide⟩

/-- C7 as amended: None when the answer does not hold exactly one page,
None when the single page id is exactly -1, and the first imageinfo url
when the single page id differs from -1. -/
theorem get_file_url_spec (resp : FileUrlResponse) :
    (resp.pages.length ≠ 1 → get_file_url resp = PyResult.ok none)
  ∧ (∀ p, resp.pages = [(-1, p)] → get_file_url resp = PyResult.ok none)
  ∧ (∀ pid p i rest, resp.pages = [(pid, p)] → pid ≠ -1 → p.imageinfo = i :: rest →
      get_file_url resp = PyResult.ok (some i.url)) := by
  refine ⟨?_, ?_, ?_⟩
  · intro h
    match hp : resp.pages with
    | [] => simp [get_file_url, hp]
    | [(pid, page)] => exact absurd (by rw [hp]; rfl) h
    | x :: y :: rest => simp [get_file_url, hp]
  · intro p hp
    simp [get_file_url, hp]
  · intro pid p i rest hp hpid hi
    have hb : (pid == -1) = false := by
      simp only [beq_eq_false_iff_ne, ne_eq]
      exact hpid
    simp [get_file_url, hp, hb, hi]

/-- Witness for C7 at three concrete responses: an ambiguous two-page one,
a single missing-file page and a single resolved page. -/
theorem get_file_url_spec_witness :
    get_file_url ⟨[(7, ⟨[]⟩), (8, ⟨[]⟩)]⟩ = PyResult.ok none
  ∧ get_file_url ⟨[(-1, ⟨[]⟩)]⟩ = PyResult.ok none
  ∧ get_file_url ⟨[(42, ⟨[⟨"https://www.4training.net/g.odt"⟩]⟩)]⟩
      = PyResult.ok (some "https://www.4training.net/g.odt") :=
  ⟨(get_file_url_spec ⟨[(7, ⟨[]⟩), (8, ⟨[]⟩)]⟩).1 (by decide),
   (get_file_url_spec ⟨[(-1, ⟨[]⟩)]⟩).2.1 ⟨[]⟩ rfl,
   (get_file_url_spec ⟨[(42, ⟨[⟨"https://www.4training.net/g.odt"⟩]⟩)]⟩).2.2
     42 ⟨[⟨"https://www.4training.net/g.odt"⟩]⟩ ⟨"https://www.4training.net/g.odt"⟩ []
     rfl (by decide) rfl⟩

/-! ## PDF name lookup (get_pdf_name, translated branch) -/

/-- One translation unit of the messagecollection response: the source
text of the unit and its translation. -/
structure TUnit where
  definition : String
  translation : String
deriving DecidableEq, Repr

/-- Shape of the messagecollection response, modelling the nesting
json[query][messagecollection] like StatsResponse does for statistics. -/
structure McResponse where
  query : Option (Option (List TUnit))

/-- For-loop of the translated branch of get_pdf_name: the pdf variable
starts unbound (none) and is overwritten by the translation of every unit
whose definition ends in .pdf, so the last match wins. -/
def get_pdf_name_scan : List TUnit → Option String → Option String
  | [], acc => acc
  | t :: ts, acc =>
    get_pdf_name_scan ts
      (if List.isSuffixOf ".pdf".data t.definition.data then some t.translation else acc)

/-- Embedding of the translated branch of get_pdf_name. The code indexes
json[query][messagecollection] with no presence check, so an absent key
raises KeyError; after the loop it returns the pdf variable, which raises
UnboundLocalError when no definition ended in .pdf. -/
def get_pdf_name_translated (resp : McResponse) : PyResult String :=
  match resp.query with
  | none => PyResult.exn "KeyError"
  | some none => PyResult.exn "KeyError"
  | some (some translations) =>
    match get_pdf_name_scan translations none with
    | some pdf => PyResult.ok pdf
    | none => PyResult.exn "UnboundLocalError"

/-- C3: contrary to the claim, the translated branch of get_pdf_name does
not return None on a structural mismatch: on a response whose
messagecollection holds no definition ending in .pdf it raises
UnboundLocalError, and on a response missing the query key it raises
KeyError. -/
theorem get_pdf_name_translated_crash :
    get_pdf_name_translated ⟨some (some [⟨"Worksheet", "Arbeitsblatt"⟩])⟩
        = PyResult.exn "UnboundLocalError"
  ∧ get_pdf_name_translated ⟨none⟩ = PyResult.exn "KeyError" :=
  ⟨rfl, rfl⟩

/-! ## Template expansion and CC0 notice (expand_template, get_cc0_notice) -/

/-- Substring test on character lists: the needle occurs as a contiguous
run somewhere in the haystack. -/
def py_in_chars (needle : List Char) : List Char → Bool
  | [] => needle.isPrefixOf []
  | c :: rest => needle.isPrefixOf (c :: rest) || py_in_chars needle rest

/-- Embedding of the in operator of Python on strings. -/
def py_in (needle haystack : String) : Bool :=
  py_in_chars needle.data haystack.data

/-- Shape of the expandtemplates response: none when the key
expandtemplates is absent, some none when wikitext is absent below it,
some (some wikitext) otherwise. -/
structure ExpandResponse where
  expandtemplates : Option (Option String)

/-- Embedding of expand_template: the wikitext of the response when both
keys are present, the empty string otherwise. -/
def expand_template (api : String → ExpandResponse) (raw_template : String) : String :=
  match (api raw_template).expandtemplates with
  | some (some wikitext) => wikitext
  | _ => ""

/-- The template invocation built by get_cc0_notice. -/
def cc0_template (languagecode version : String) : String :=
  "\x7b\x7bCC0Notice/" ++ languagecode ++ "|" ++ version ++ "\x7d\x7d"

/-- Tag for the warning logged when the expansion carries the fuzzy
marker. -/
def fuzzyWarning : String := "warning: fuzzy CC0Notice translation"

/-- Tag for the warning logged when the expansion still carries the
unexpanded template name. -/
def untranslatedWarning : String := "warning: untranslated CC0Notice"

/-- Embedding of get_cc0_notice: expands the invocation, logs a warning on
the fuzzy marker, and returns the TODO placeholder only when the literal
name Template:CC0Notice is still in the expansion; second component is the
list of logged warnings. -/
def get_cc0_notice (api : String → ExpandResponse) (version languagecode : String) :
    String × List String :=
  let expanded := expand_template api (cc0_template languagecode version)
  let warns := if py_in "mw-translate-fuzzy" expanded then [fuzzyWarning] else []
  if py_in "Template:CC0Notice" expanded then
    ("TODO translate https://www.4training.net/Template:CC0Notice",
      warns ++ [untranslatedWarning])
  else (expanded, warns)

/-- Expansion carrying the fuzzy marker but not the literal template
name. -/
def fuzzyApi : String → ExpandResponse :=
  fun _ => ⟨some (some "<div class=mw-translate-fuzzy>CC0 Hinweis 1.3</div>")⟩

/-- C4 counterexample: when the expansion contains the fuzzy marker but
not the literal template name, get_cc0_notice returns the expansion, not
the TODO placeholder the claim demands. -/
theorem get_cc0_notice_fuzzy_not_placeholder :
    py_in "mw-translate-fuzzy" (expand_template fuzzyApi (cc0_template "de" "1.3")) = true
  ∧ (get_cc0_notice fuzzyApi "1.3" "de").1
      = "<div class=mw-translate-fuzzy>CC0 Hinweis 1.3</div>"
  ∧ "<div class=mw-translate-fuzzy>CC0 Hinweis 1.3</div>"
      ≠ "TODO translate https://www.4training.net/Template:CC0Notice" := by
  refine ⟨by decide, by decide, by decide⟩

/-- C4 as amended: get_cc0_notice returns the TODO placeholder exactly
when the expansion still contains the literal name Template:CC0Notice;
the fuzzy marker alone only logs a warning while the expansion is
returned unchanged. -/
theorem get_cc0_notice_spec (api : String → ExpandResponse) (version languagecode : String) :
    (py_in "Template:CC0Notice" (expand_template api (cc0_template languagecode version)) = true →
      (get_cc0_notice api version languagecode).1
        = "TODO translate https://www.4training.net/Template:CC0Notice")
  ∧ (py_in "Template:CC0Notice" (expand_template api (cc0_template languagecode version)) = false →
      (get_cc0_notice api version languagecode).1
        = expand_template api (cc0_template languagecode version))
  ∧ (py_in "mw-translate-fuzzy" (expand_template api (cc0_template languagecode version)) = true →
      fuzzyWarning ∈ (get_cc0_notice api version languagecode).2) := by
  refine ⟨?_, ?_, ?_⟩
  · intro h
    simp [get_cc0_notice, h]
  · intro h
    simp [get_cc0_notice, h]
  · intro h
    by_cases h2 : py_in "Template:CC0Notice"
        (expand_template api (cc0_template languagecode version)) = true
    · simp [get_cc0_notice, h, h2]
    · have h2f : py_in "Template:CC0Notice"
          (expand_template api (cc0_template languagecode version)) = false := by
        simpa using h2
      simp [get_cc0_notice, h, h2f]

/-- Expansion still containing the unexpanded template name. -/
def untranslatedApi : String → ExpandResponse :=
  fun _ => ⟨some (some "See Template:CC0Notice for the text")⟩

/-- Witness for C4 as amended, at a concrete untranslated expansion. -/
theorem get_cc0_notice_spec_witness :
    (get_cc0_notice untranslatedApi "1.0" "xy").1
      = "TODO translate https://www.4training.net/Template:CC0Notice" :=
  (get_cc0_notice_spec untranslatedApi "1.0" "xy").1 (by decide)

/-! ## Title to message key (title_to_message) -/

/-- Embedding of the replace method of Python strings on character lists,
replacing non-overlapping occurrences left to right; the fuel argument is
a termination budget, one unit per consumed character, so the initial
budget is the length of the string. -/
def py_replace_fuel (pat rep : List Char) : Nat → List Char → List Char
  | _, [] => []
  | 0, s => s
  | fuel + 1, c :: cs =>
    if !pat.isEmpty && pat.isPrefixOf (c :: cs) then
      rep ++ py_replace_fuel pat rep fuel (List.drop (pat.length - 1) cs)
    else
      c :: py_replace_fuel pat rep fuel cs

/-- Embedding of the replace method of Python strings. -/
def py_replace (s pat rep : List Char) : List Char :=
  py_replace_fuel pat rep s.length s

/-- The apostrophe character. -/
def apostrophe : Char := Char.ofNat 39

/-- Conversion of Char.ofNat back to the code point, below the surrogate
range. -/
theorem char_toNat_ofNat_valid (n : Nat) (h : n < 55296) : (Char.ofNat n).toNat = n := by
  have hv : n.isValidChar := Or.inl h
  unfold Char.ofNat
  rw [dif_pos hv]
  rfl

/-- Embedding of the lower method of Python strings on one character,
matching the ASCII case mapping the titles of this repository use. -/
def py_toLower (c : Char) : Char :=
  if 65 ≤ c.toNat ∧ c.toNat ≤ 90 then Char.ofNat (c.toNat + 32) else c

/-- Embedding of title_to_message: remove hyphens, turn underscore-paren
into a hyphen, remove closing parens, apostrophes, underscores and colons,
lower-case, prepend the sidebar- prefix. -/
def title_to_message (title : String) : String :=
  let ret := py_replace title.data ['-'] []
  let ret := py_replace ret ['_', '('] ['-']
  let ret := py_replace ret [')'] []
  let ret := py_replace ret [apostrophe] []
  let ret := py_replace ret ['_'] []
  let ret := py_replace ret [':'] []
  String.mk ("sidebar-".data ++ ret.map py_toLower)

/-- The pipeline exactly as the specification words it, with the literal
space-paren pattern the specification names for the second step. -/
def title_to_message_specwords (title : String) : String :=
  let ret := py_replace title.data ['-'] []
  let ret := py_replace ret [' ', '('] ['-']
  let ret := py_replace ret [')'] []
  let ret := py_replace ret [apostrophe] []
  let ret := py_replace ret ['_'] []
  let ret := py_replace ret [':'] []
  String.mk ("sidebar-".data ++ ret.map py_toLower)

/-- The pipeline as amended: identical to the specification wording except
that the second step replaces underscore-paren, not space-paren. -/
def title_to_message_steps (title : String) : String :=
  let step1 := py_replace title.data ['-'] []
  let step2 := py_replace step1 ['_', '('] ['-']
  let step3 := py_replace step2 [')'] []
  let step4 := py_replace step3 [apostrophe] []
  let step5 := py_replace step4 ['_'] []
  let step6 := py_replace step5 [':'] []
  String.mk ("sidebar-".data ++ step6.map py_toLower)

/-- The worksheet title of the God's Story (five fingers) page. -/
def gods_story_title : String :=
  String.mk ['G', 'o', 'd', apostrophe, 's', '_', 'S', 't', 'o', 'r', 'y', '_', '(',
    'f', 'i', 'v', 'e', '_', 'f', 'i', 'n', 'g', 'e', 'r', 's', ')']

/-- C5 counterexample: the pipeline as literally worded by the
specification, with the space-paren pattern, disagrees with
title_to_message on the third example the specification itself gives, so
the claimed pipeline and the claimed example values cannot both hold. -/
theorem title_to_message_specwords_mismatch :
    title_to_message gods_story_title = "sidebar-godsstory-fivefingers"
  ∧ title_to_message_specwords gods_story_title = "sidebar-godsstory(fivefingers"
  ∧ title_to_message_specwords gods_story_title ≠ title_to_message gods_story_title := by
  refine ⟨by decide, by decide, by decide⟩

/-- C5 as amended: title_to_message is the ordered pipeline of the
specification with underscore-paren in the second step, and it maps the
three example titles to the claimed message keys. -/
theorem title_to_message_spec :
    (∀ t : String, title_to_message t = title_to_message_steps t)
  ∧ title_to_message "Prayer" = "sidebar-prayer"
  ∧ title_to_message "The_Three-Thirds_Process" = "sidebar-thethreethirdsprocess"
  ∧ title_to_message gods_story_title = "sidebar-godsstory-fivefingers" := by
  refine ⟨fun t => rfl, by decide, by decide, by decide⟩

/-- Witness for C5 as amended, at the first example title. -/
theorem title_to_message_spec_witness :
    title_to_message "Prayer" = title_to_message_steps "Prayer" :=
  title_to_message_spec.1 "Prayer"

/-- Characters of a replacement result come from the input or from the
replacement text. -/
theorem py_replace_fuel_mem (pat rep : List Char) (fuel : Nat) (s : List Char) :
    ∀ x ∈ py_replace_fuel pat rep fuel s, x ∈ s ∨ x ∈ rep := by
  induction fuel generalizing s with
  | zero =>
    intro x hx
    cases s with
    | nil => simp [py_replace_fuel] at hx
    | cons c cs => exact Or.inl (by simpa [py_replace_fuel] using hx)
  | succ n ih =>
    intro x hx
    cases s with
    | nil => simp [py_replace_fuel] at hx
    | cons c cs =>
      by_cases hcond : (!pat.isEmpty && pat.isPrefixOf (c :: cs)) = true
      · rw [py_replace_fuel, if_pos hcond] at hx
        rcases List.mem_append.mp hx with hr | hrec
        · exact Or.inr hr
        · rcases ih _ x hrec with hdrop | hr
          · exact Or.inl (List.mem_cons_of_mem c (List.mem_of_mem_drop hdrop))
          · exact Or.inr hr
      · rw [py_replace_fuel, if_neg hcond] at hx
        rcases List.mem_cons.mp hx with hxc | hrec
        · exact Or.inl (hxc ▸ List.mem_cons_self c cs)
        · rcases ih cs x hrec with hcs | hr
          · exact Or.inl (List.mem_cons_of_mem c hcs)
          · exact Or.inr hr

/-- Characters of a replacement result come from the input or from the
replacement text, for py_replace. -/
theorem py_replace_mem (s pat rep : List Char) :
    ∀ x ∈ py_replace s pat rep, x ∈ s ∨ x ∈ rep :=
  py_replace_fuel_mem pat rep s.length s

/-- Replacing a single character by nothing removes every occurrence of
it, provided the fuel covers the input length. -/
theorem py_replace_fuel_single_not_mem (b : Char) (fuel : Nat) (s : List Char)
    (h : s.length ≤ fuel) : b ∉ py_replace_fuel [b] [] fuel s := by
  induction fuel generalizing s with
  | zero =>
    cases s with
    | nil => simp [py_replace_fuel]
    | cons c cs => simp at h
  | succ n ih =>
    cases s with
    | nil => simp [py_replace_fuel]
    | cons c cs =>
      by_cases hcb : (b == c) = true
      · have hcond : (!([b] : List Char).isEmpty && ([b] : List Char).isPrefixOf (c :: cs))
            = true := by
          simp [List.isPrefixOf, hcb]
        rw [py_replace_fuel, if_pos hcond]
        simp only [List.nil_append, List.length_singleton, Nat.sub_self, List.drop_zero]
        exact ih cs (by simpa using Nat.le_of_succ_le_succ (by simpa using h))
      · have hcond : ¬(!([b] : List Char).isEmpty && ([b] : List Char).isPrefixOf (c :: cs))
            = true := by
          simp [List.isPrefixOf, hcb]
        rw [py_replace_fuel, if_neg hcond]
        intro hmem
        rcases List.mem_cons.mp hmem with hbc | hrec
        · exact absurd (beq_of_eq hbc) (by simpa using hcb)
        · exact ih cs (by simpa using Nat.le_of_succ_le_succ (by simpa using h)) hrec

/-- Replacing a single character by nothing removes every occurrence of
it. -/
theorem py_replace_single_not_mem (b : Char) (s : List Char) :
    b ∉ py_replace s [b] [] :=
  py_replace_fuel_single_not_mem b s.length s (Nat.le_refl _)

/-- Lower-casing a character either leaves it unchanged or lands in the
lower-case ASCII letter range. -/
theorem py_toLower_cases (c : Char) :
    py_toLower c = c ∨ (97 ≤ (py_toLower c).toNat ∧ (py_toLower c).toNat ≤ 122) := by
  by_cases h : 65 ≤ c.toNat ∧ c.toNat ≤ 90
  · right
    unfold py_toLower
    rw [if_pos h, char_toNat_ofNat_valid _ (by omega)]
    omega
  · left
    unfold py_toLower
    rw [if_neg h]

/-- Lower-casing a character never yields an upper-case ASCII letter. -/
theorem py_toLower_not_upper (c : Char) :
    ¬(65 ≤ (py_toLower c).toNat ∧ (py_toLower c).toNat ≤ 90) := by
  by_cases h : 65 ≤ c.toNat ∧ c.toNat ≤ 90
  · unfold py_toLower
    rw [if_pos h, char_toNat_ofNat_valid _ (by omega)]
    omega
  · unfold py_toLower
    rw [if_neg h]
    omega

/-- A character outside the lower-case ASCII letter range that occurs in a
lower-cased list already occurred in the list. -/
theorem mem_of_mem_map_py_toLower {x : Char} {l : List Char}
    (hx : x ∈ l.map py_toLower) (hrange : ¬(97 ≤ x.toNat ∧ x.toNat ≤ 122)) : x ∈ l := by
  rcases List.mem_map.mp hx with ⟨d, hd, hdx⟩
  rcases py_toLower_cases d with h | h
  · have hxd : x = d := by rw [← hdx, h]
    exact hxd ▸ hd
  · rw [hdx] at h
    exact absurd h hrange

/-- A character absent from the input and from the replacement text is
absent from the replacement result. -/
theorem not_mem_py_replace_of_not_mem {x : Char} {s pat rep : List Char}
    (hs : x ∉ s) (hrep : x ∉ rep) : x ∉ py_replace s pat rep := by
  intro hmem
  rcases py_replace_mem s pat rep x hmem with h | h
  · exact hs h
  · exact hrep h

/-- The four removal stages of title_to_message leave no closing paren,
apostrophe, underscore or colon, whatever list they start from. -/
theorem title_removals_not_mem (B : List Char) :
    ')' ∉ py_replace (py_replace (py_replace (py_replace B [')'] [])
        [apostrophe] []) ['_'] []) [':'] []
  ∧ apostrophe ∉ py_replace (py_replace (py_replace (py_replace B [')'] [])
        [apostrophe] []) ['_'] []) [':'] []
  ∧ '_' ∉ py_replace (py_replace (py_replace (py_replace B [')'] [])
        [apostrophe] []) ['_'] []) [':'] []
  ∧ ':' ∉ py_replace (py_replace (py_replace (py_replace B [')'] [])
        [apostrophe] []) ['_'] []) [':'] [] := by
  have c3 : ')' ∉ py_replace B [')'] [] := py_replace_single_not_mem ')' B
  have c4 : ')' ∉ py_replace (py_replace B [')'] []) [apostrophe] [] :=
    not_mem_py_replace_of_not_mem c3 (List.not_mem_nil _)
  have c5 : ')' ∉ py_replace (py_replace (py_replace B [')'] []) [apostrophe] []) ['_'] [] :=
    not_mem_py_replace_of_not_mem c4 (List.not_mem_nil _)
  have c6 : ')' ∉ py_replace (py_replace (py_replace (py_replace B [')'] [])
      [apostrophe] []) ['_'] []) [':'] [] :=
    not_mem_py_replace_of_not_mem c5 (List.not_mem_nil _)
  have a4 : apostrophe ∉ py_replace (py_replace B [')'] []) [apostrophe] [] :=
    py_replace_single_not_mem apostrophe _
  have a5 : apostrophe ∉ py_replace (py_replace (py_replace B [')'] [])
      [apostrophe] []) ['_'] [] :=
    not_mem_py_replace_of_not_mem a4 (List.not_mem_nil _)
  have a6 : apostrophe ∉ py_replace (py_replace (py_replace (py_replace B [')'] [])
      [apostrophe] []) ['_'] []) [':'] [] :=
    not_mem_py_replace_of_not_mem a5 (List.not_mem_nil _)
  have u5 : '_' ∉ py_replace (py_replace (py_replace B [')'] []) [apostrophe] []) ['_'] [] :=
    py_replace_single_not_mem '_' _
  have u6 : '_' ∉ py_replace (py_replace (py_replace (py_replace B [')'] [])
      [apostrophe] []) ['_'] []) [':'] [] :=
    not_mem_py_replace_of_not_mem u5 (List.not_mem_nil _)
  have k6 : ':' ∉ py_replace (py_replace (py_replace (py_replace B [')'] [])
      [apostrophe] []) ['_'] []) [':'] [] :=
    py_replace_single_not_mem ':' _
  exact ⟨c6, a6, u6, k6⟩

/-- C10: for every input title, the output of title_to_message starts with
the sidebar- prefix and contains no closing paren, no apostrophe, no
underscore, no colon and no upper-case ASCII letter. -/
theorem title_to_message_invariants (t : String) :
    "sidebar-".data <+: (title_to_message t).data
  ∧ ')' ∉ (title_to_message t).data
  ∧ apostrophe ∉ (title_to_message t).data
  ∧ '_' ∉ (title_to_message t).data
  ∧ ':' ∉ (title_to_message t).data
  ∧ ∀ c ∈ (title_to_message t).data, ¬(65 ≤ c.toNat ∧ c.toNat ≤ 90) := by
  have hsplit : (title_to_message t).data
      = "sidebar-".data ++ (py_replace (py_replace (py_replace (py_replace
          (py_replace (py_replace t.data ['-'] []) ['_', '('] ['-'])
          [')'] []) [apostrophe] []) ['_'] []) [':'] []).map py_toLower := rfl
  have hfin := title_removals_not_mem (py_replace (py_replace t.data ['-'] []) ['_', '('] ['-'])
  have hpre : ∀ x ∈ "sidebar-".data, ¬(65 ≤ x.toNat ∧ x.toNat ≤ 90) := by decide
  refine ⟨?_, ?_, ?_, ?_, ?_, ?_⟩
  · rw [hsplit]
    exact List.prefix_append _ _
  · intro hmem
    rw [hsplit] at hmem
    rcases List.mem_append.mp hmem with h | h
    · exact absurd h (by decide)
    · exact hfin.1 (mem_of_mem_map_py_toLower h (by decide))
  · intro hmem
    rw [hsplit] at hmem
    rcases List.mem_append.mp hmem with h | h
    · exact absurd h (by decide)
    · exact hfin.2.1 (mem_of_mem_map_py_toLower h (by decide))
  · intro hmem
    rw [hsplit] at hmem
    rcases List.mem_append.mp hmem with h | h
    · exact absurd h (by decide)
    · exact hfin.2.2.1 (mem_of_mem_map_py_toLower h (by decide))
  · intro hmem
    rw [hsplit] at hmem
    rcases List.mem_append.mp hmem with h | h
    · exact absurd h (by decide)
    · exact hfin.2.2.2 (mem_of_mem_map_py_toLower h (by decide))
  · intro c hc
    rw [hsplit] at hc
    rcases List.mem_append.mp hc with h | h
    · exact hpre c h
    · rcases List.mem_map.mp h with ⟨d, _, hdc⟩
      rw [← hdc]
      exact py_toLower_not_upper d

/-- Witness for C10 at a concrete title. -/
theorem title_to_message_invariants_witness :
    "sidebar-".data <+: (title_to_message gods_story_title).data
  ∧ ')' ∉ (title_to_message gods_story_title).data
  ∧ apostrophe ∉ (title_to_message gods_story_title).data
  ∧ '_' ∉ (title_to_message gods_story_title).data
  ∧ ':' ∉ (title_to_message gods_story_title).data
  ∧ ∀ c ∈ (title_to_message gods_story_title).data, ¬(65 ≤ c.toNat ∧ c.toNat ≤ 90) :=
  title_to_message_invariants gods_story_title

end Fortraininglib
